import Mathlib

/-!
Verification of the core invariants of the scales RPC client library.

The definitions below are a shallow embedding of the Python source:

* `TagPool`, `MuxTransport` and its operations embed
  `scales/thriftmux/sink.py` (`TagPool.get`, `TagPool.release`,
  `SocketTransportSink._Shutdown`, `SocketTransportSink._ReleaseTag`,
  `SocketTransportSink.AsyncProcessRequest`).
* `wrapException` and `dispatchDeadline` embed `scales/dispatch.py`
  (`MessageDispatcher._WrapException`, `MessageDispatcher.DispatchMethodCall`).
* `TimerQueue` operations embed `scales/timer_queue.py`
  (`TimerQueue.Schedule`, the `cancel` closure and `TimerQueue._TimerWorker`).
* `timeoutSinkProcess` and `timeoutReplyFire` embed `scales/sink.py`
  (`TimeoutSink.AsyncProcessMessage`, `TimeoutReplySink._TimeoutHelper`).
* `serialAPR` embeds `scales/thrift/sink.py`
  (`SocketTransportSink.AsyncProcessRequest`, the serial transport).
* `Endpoint`, `Member` and `memberBeq` embed
  `scales/loadbalancer/zookeeper.py` (`Endpoint.__eq__`, `Member._key`,
  `Member.__eq__`).

Python `time.time()` values (floats used only for comparison and addition
here) are modelled as rationals.  Machine-level float rounding plays no role
in any of the control-flow decisions proved about.
-/

/-! ## Tag pool (scales/thriftmux/sink.py, class TagPool) -/

/-- State of `TagPool`.  `free` models the Python set `self._set` (kept
duplicate-free because `set.add` is idempotent), `next` models `self._next`
(initially 1), `maxTag` models `self._max_tag`, and `exhausted` models the
`pool_exhausted` varz counter. -/
structure TagPool where
  free : List Nat
  next : Nat
  maxTag : Nat
  exhausted : Nat
deriving DecidableEq

/-- Result of `TagPool.get`: either a tag plus the updated pool, or the
"No tags left in pool." exception (which is raised after the
`pool_exhausted` counter was bumped, hence the updated pool). -/
inductive GetResult where
| ok (tag : Nat) (pool : TagPool)
| exhausted (pool : TagPool)
deriving DecidableEq

/-- Embedding of `TagPool.get`.

Python:
  if not any(self._set):        -- true iff the set has no nonzero element
    if self._next == self._max_tag - 1: raise Exception(...)
    self._next += 1; return self._next
  else:
    return self._set.pop()      -- removes an unspecified element

CPython `set.pop` removes an unspecified element; the embedding removes the
head of the list.  The theorems about in-flight disjointness are proved via
disjointness of the whole free set, so they do not depend on which element
is chosen. -/
def TagPool.get (p : TagPool) : GetResult :=
  if p.free.any (fun t => t != 0) then
    match p.free with
    | t :: rest => GetResult.ok t { p with free := rest }
    | [] => GetResult.exhausted p -- unreachable: `List.any` is false on `[]`
  else if p.next = p.maxTag - 1 then
    GetResult.exhausted { p with exhausted := p.exhausted + 1 }
  else
    GetResult.ok (p.next + 1) { p with next := p.next + 1 }

/-- Embedding of `TagPool.release`.  Python logs a warning when the tag is
already in the set and then calls `set.add`, which is a no-op on
duplicates. -/
def TagPool.release (p : TagPool) (tag : Nat) : TagPool :=
  if tag ∈ p.free then p else { p with free := tag :: p.free }

/-! ## Multiplexed socket transport (scales/thriftmux/sink.py) -/

/-- Modelled from the spec: `DispatcherState` is imported from
`scales/constants.py`, which is not part of the sources; the spec gives the
state machine `Uninitialized -> Starting -> Running -> Stopped`. -/
inductive DispatcherState where
| UNINITIALIZED
| STARTING
| RUNNING
| STOPPED
deriving DecidableEq

/-- Modelled from the spec: the error payload of the `MethodReturnMessage`
built by `_Shutdown` (`MethodReturnMessage(error=ScalesClientError(reason))`,
classes defined in the absent `scales/message.py`; spec section 3 describes
a return message as `return_value` or `error`, mutually exclusive). -/
inductive MuxError where
| scalesClientError (reason : String)
deriving DecidableEq

/-- Modelled from the spec: a `MethodReturnMessage` as dispatched on the
reply path of the multiplexed transport. -/
structure MuxRetMsg where
  error : Option MuxError
deriving DecidableEq

/-- Embedding of `SocketTransportSink._EncodeTag`:
`[tag >> 16 & 0xff, tag >> 8 & 0xff, tag & 0xff]`. -/
def encodeTag (tag : Nat) : List Nat :=
  [(tag >>> 16) % 256, (tag >>> 8) % 256, tag % 256]

/-- A frame placed on the send queue: the header built by
`SocketTransportSink._BuildHeader` (`total_len = 1 + 3 + data_len`, the
message type byte, three tag bytes) followed by `data_len` payload bytes
(opaque here). -/
structure Frame where
  totalLen : Nat
  msgType : Int
  tagBytes : List Nat
  dataLen : Nat
deriving DecidableEq

/-- Embedding of `_BuildHeader` plus the payload concatenation done in
`AsyncProcessRequest`. -/
def mkFrame (tag : Nat) (msgType : Int) (dataLen : Nat) : Frame :=
  { totalLen := 1 + 3 + dataLen
    msgType := msgType
    tagBytes := encodeTag tag
    dataLen := dataLen }

/-- State of the multiplexed `SocketTransportSink`.  `tagMap` models the
Python dict `self._tag_map` (tag -> sink stack, identified here by a
numeric id), `sendQueue` models `self._send_queue`, `shutdownReason` models
the single-assignment `self.shutdown_result` (modelled from the spec: the
shared shutdown future signalled by `_Shutdown`; the base class holding it
is not in the sources), and `activeGauge` models the `active` varz gauge. -/
structure MuxTransport where
  state : DispatcherState
  tagMap : List (Nat × Nat)
  pool : TagPool
  sendQueue : List Frame
  socketClosed : Bool
  shutdownReason : Option String
  activeGauge : Int
deriving DecidableEq

/-- Keys currently present in the in-flight map. -/
def MuxTransport.tags (s : MuxTransport) : List Nat :=
  s.tagMap.map Prod.fst

/-- Python dict deletion of a key (used for `dict.pop` and to give
`self._tag_map[tag] = sink_stack` its overwrite semantics). -/
def eraseKey (k : Nat) (m : List (Nat × Nat)) : List (Nat × Nat) :=
  m.filter (fun kv => kv.1 != k)

/-- Python `dict.get` / `dict.pop` lookup. -/
def lookupKey (k : Nat) (m : List (Nat × Nat)) : Option Nat :=
  (m.find? (fun kv => kv.1 == k)).map Prod.snd

/-- The fresh state of the transport as built by
`SocketTransportSink.__init__`: empty tag map, state `UNINITIALIZED`, and a
tag pool `TagPool((2 ** 24) - 1, ...)` with `_next = 1`. -/
def initMux : MuxTransport :=
  { state := DispatcherState.UNINITIALIZED
    tagMap := []
    pool := { free := [], next := 1, maxTag := 2 ^ 24 - 1, exhausted := 0 }
    sendQueue := []
    socketClosed := false
    shutdownReason := none
    activeGauge := 0 }

/-- Outcome of `SocketTransportSink.AsyncProcessRequest` (multiplexed).
`response` records any `MethodReturnMessage` delivered to the caller's
sink stack by the method itself: the source never delivers one, so every
branch below yields `none`.  `raised` records the propagation of the
pool-exhausted exception out of `self._tag_pool.get()`.  `assignedTag`
records the tag stamped into `msg.properties[Tag.KEY]`. -/
structure AprOutcome where
  transport : MuxTransport
  response : Option (Nat × MuxRetMsg)
  raised : Bool
  assignedTag : Option Nat
deriving DecidableEq

/-- Embedding of the multiplexed `SocketTransportSink.AsyncProcessRequest`.

Python:
  if not msg.is_one_way:
    tag = self._tag_pool.get()          -- may raise; nothing else happens
    msg.properties[Tag.KEY] = tag
    self._tag_map[tag] = sink_stack
  else:
    tag = 0
  header = self._BuildHeader(tag, headers[Headers.MessageType], data_len)
  payload = header + stream.getvalue()
  self._send_queue.put(payload)

Note: the method inspects neither `self._state` nor `self.isActive`. -/
def MuxTransport.asyncProcessRequest (s : MuxTransport) (sinkStack : Nat)
    (isOneWay : Bool) (msgType : Int) (dataLen : Nat) : AprOutcome :=
  if isOneWay then
    { transport := { s with sendQueue := s.sendQueue ++ [mkFrame 0 msgType dataLen] }
      response := none
      raised := false
      assignedTag := none }
  else
    match s.pool.get with
    | GetResult.exhausted p2 =>
      { transport := { s with pool := p2 }
        response := none
        raised := true
        assignedTag := none }
    | GetResult.ok tag p2 =>
      { transport :=
          { s with
            pool := p2
            tagMap := (tag, sinkStack) :: eraseKey tag s.tagMap
            sendQueue := s.sendQueue ++ [mkFrame tag msgType dataLen] }
        response := none
        raised := false
        assignedTag := some tag }

/-- Embedding of `SocketTransportSink._ReleaseTag`:
`reply_stack = self._tag_map.pop(tag, None); self._tag_pool.release(tag)`.
Returns the updated transport and the popped sink stack, if any. -/
def MuxTransport.releaseTag (s : MuxTransport) (tag : Nat) :
    MuxTransport × Option Nat :=
  ({ s with tagMap := eraseKey tag s.tagMap, pool := s.pool.release tag },
   lookupKey tag s.tagMap)

/-- Embedding of `SocketTransportSink._Shutdown`.  Returns the updated
transport and the list of `DispatchReplyMessage` deliveries (sink stack id
paired with the error return message) performed on the in-flight map.

Python:
  if not self.isActive: return            -- isActive: state != STOPPED
  self._varz.active(-1)
  self._state = DispatcherState.STOPPED
  self._socket.close()
  ... reason = Exception(str(reason)) ...
  self.shutdown_result.set_exception(reason)
  msg = MethodReturnMessage(error=ScalesClientError(reason))
  for sink_stack in self._tag_map.values():
    sink_stack.DispatchReplyMessage(msg) -/
def MuxTransport.shutdown (s : MuxTransport) (reason : String) :
    MuxTransport × List (Nat × MuxRetMsg) :=
  if s.state = DispatcherState.STOPPED then
    (s, [])
  else
    ({ s with
        activeGauge := s.activeGauge - 1
        state := DispatcherState.STOPPED
        socketClosed := true
        shutdownReason := some reason },
     s.tagMap.map (fun kv =>
       (kv.2, { error := some (MuxError.scalesClientError reason) })))

/-! ## Operation traces over the multiplexed transport (claim C1) -/

/-- The operations named by the tag-uniqueness claim. -/
inductive MuxOp where
| processRequest (sinkStack : Nat) (isOneWay : Bool) (msgType : Int) (dataLen : Nat)
| releaseTag (tag : Nat)
| poolGet
| poolRelease (tag : Nat)
deriving DecidableEq

/-- Effect of one operation on the transport state.  A bare `poolGet`
drops the returned tag; a bare `poolRelease` calls `TagPool.release`
directly. -/
def MuxTransport.applyOp (s : MuxTransport) : MuxOp → MuxTransport
| MuxOp.processRequest st ow mt dl => (s.asyncProcessRequest st ow mt dl).transport
| MuxOp.releaseTag t => (s.releaseTag t).1
| MuxOp.poolGet =>
    match s.pool.get with
    | GetResult.ok _ p2 => { s with pool := p2 }
    | GetResult.exhausted p2 => { s with pool := p2 }
| MuxOp.poolRelease t => { s with pool := s.pool.release t }

/-- Run a whole sequence of operations. -/
def MuxTransport.runOps (s : MuxTransport) (ops : List MuxOp) : MuxTransport :=
  ops.foldl MuxTransport.applyOp s

/-- States reachable from the fresh transport when every release goes
through `_ReleaseTag` and only for a tag currently in the in-flight map
(the discipline the transport itself follows: `_ReleaseTag` is invoked by
`_ProcessReply` for tags the server acknowledged). -/
inductive SafeReachable : MuxTransport → Prop
| init : SafeReachable initMux
| request (s : MuxTransport) (st : Nat) (ow : Bool) (mt : Int) (dl : Nat) :
    SafeReachable s → SafeReachable (s.applyOp (MuxOp.processRequest st ow mt dl))
| release (s : MuxTransport) (t : Nat) :
    SafeReachable s → t ∈ s.tags → SafeReachable (s.applyOp (MuxOp.releaseTag t))
| get (s : MuxTransport) :
    SafeReachable s → SafeReachable (s.applyOp MuxOp.poolGet)

/-- The inductive invariant tying the pool to the in-flight map: the free
set is duplicate-free, every free or in-flight tag lies in `[2, next]`,
`next` is at least 1, and the free set is disjoint from the in-flight
keys. -/
def MuxInv (s : MuxTransport) : Prop :=
  s.pool.free.Nodup ∧
  1 ≤ s.pool.next ∧
  (∀ t ∈ s.pool.free, 2 ≤ t ∧ t ≤ s.pool.next) ∧
  (∀ t ∈ s.tags, 2 ≤ t ∧ t ≤ s.pool.next) ∧
  (∀ t ∈ s.tags, t ∉ s.pool.free)

/-! ## Dispatcher (scales/dispatch.py) -/

/-- Modelled from the spec: Python exception values as they appear in
`msg.error`.  `timeoutErrorClass` is the class object `TimeoutError`
itself, `timeoutErrorInstance` is an instance `TimeoutError()` (the value
the timeout sink stores in `MethodReturnMessage(error=TimeoutError())`),
and `otherError` covers every other exception value.  The distinction
between class and instance matters because `_WrapException` tests
`msg.error is TimeoutError` (Python object identity against the class). -/
inductive PyErr where
| timeoutErrorClass
| timeoutErrorInstance
| otherError (name : String)
deriving DecidableEq

/-- Modelled from the spec: the `MethodReturnMessage` view used by the
dispatcher (`scales/message.py` is not in the sources; spec section 3:
either `return_value` or `error`, and the message "may carry a stack-trace
string for diagnostic wrapping" - read by `getattr(msg, 'stack', None)`). -/
structure DispRetMsg where
  error : Option PyErr
  stack : Option (List String)
deriving DecidableEq

/-- Result of `_WrapException`: either `msg.error` returned unchanged, or a
`ScalesError` wrapping the joined stack text. -/
inductive WrapResult where
| raw (e : Option PyErr)
| scalesError (text : String)
deriving DecidableEq

/-- The wrapping text built by `_WrapException` from the stack list. -/
def wrapText (stack : List String) : String :=
  ("An error occurred while processing the request\x0a[Inner Exception: --------------------]\x0a")
    ++ String.join stack
    ++ ("[End of Inner Exception---------------]\x0a")

/-- Embedding of `MessageDispatcher._WrapException`.

Python:
  # Do not wrap timeouts.
  if msg.error is TimeoutError:       -- identity test against the CLASS
    return msg.error
  stack = getattr(msg, 'stack', None)
  if stack:                           -- truthy: non-None and non-empty
    return ScalesError(text % ''.join(stack))
  else:
    return msg.error -/
def wrapException (msg : DispRetMsg) : WrapResult :=
  if msg.error = some PyErr.timeoutErrorClass then
    WrapResult.raw msg.error
  else
    match msg.stack with
    | some stack =>
      if stack.isEmpty then WrapResult.raw msg.error
      else WrapResult.scalesError (wrapText stack)
    | none => WrapResult.raw msg.error

/-- Embedding of the timeout selection in
`MessageDispatcher.DispatchMethodCall`: `timeout = timeout or
self._dispatch_timeout`.  A Python numeric timeout is falsy exactly when it
is 0 (and `None` is falsy), in which case the default applies. -/
def effectiveTimeout (timeoutArg : Option Rat) (defaultTimeout : Rat) : Rat :=
  match timeoutArg with
  | some t => if t = 0 then defaultTimeout else t
  | none => defaultTimeout

/-- Embedding of the deadline stamping in `DispatchMethodCall`:
`deadline = now + timeout; disp_msg.properties[Deadline.KEY] = deadline`. -/
def dispatchDeadline (now : Rat) (timeoutArg : Option Rat) (defaultTimeout : Rat) : Rat :=
  now + effectiveTimeout timeoutArg defaultTimeout

/-! ## Timer queue (scales/timer_queue.py) -/

/-- A heap entry `[deadline, seq, cancelled, action]` as pushed by
`TimerQueue.Schedule`.  The action is an opaque id; `cancel` nulls it out
(`timeout_args[3] = None`). -/
structure TimerEntry where
  deadline : Rat
  seq : Nat
  cancelled : Bool
  action : Option Nat
deriving DecidableEq

/-- Python `heapq` orders the `[deadline, seq, ...]` lists
lexicographically; sequence numbers are unique so the comparison never
reaches the later fields. -/
def entryLe (a b : TimerEntry) : Bool :=
  a.deadline < b.deadline || (a.deadline = b.deadline && a.seq ≤ b.seq)

/-- Remove the minimal entry (the entry `heappop` would return). -/
def popMin : List TimerEntry → Option (TimerEntry × List TimerEntry)
| [] => none
| e :: rest =>
  match popMin rest with
  | none => some (e, [])
  | some (m, rest2) =>
    if entryLe e m then some (e, rest) else some (m, e :: rest2)

/-- State of a `TimerQueue`: the heap, the `_seq` counter and the
configured `_resolution`. -/
structure TimerQueueState where
  queue : List TimerEntry
  seqCounter : Nat
  resolution : Rat
deriving DecidableEq

/-- Embedding of the deadline quantization in `Schedule`:
`deadline = int(math.ceil(float(deadline) / resolution)) * resolution`
(applied only when the resolution is truthy, i.e. nonzero). -/
def quantize (resolution deadline : Rat) : Rat :=
  if resolution = 0 then deadline else ⌈deadline / resolution⌉ * resolution

/-- Embedding of `TimerQueue.Schedule` (minus the worker wake-up event,
which only affects scheduling latency): bump `_seq`, push
`[deadline, seq, False, action]`.  Returns the new state and the sequence
number that identifies the entry to its `cancel` closure. -/
def TimerQueueState.schedule (tq : TimerQueueState) (deadline : Rat)
    (action : Nat) : TimerQueueState × Nat :=
  let d := quantize tq.resolution deadline
  let s := tq.seqCounter + 1
  ({ tq with
      queue := { deadline := d, seq := s, cancelled := false, action := some action } :: tq.queue
      seqCounter := s },
   s)

/-- Embedding of the `cancel` closure returned by `Schedule`:
`timeout_args[2] = True; timeout_args[3] = None` on the entry it closed
over (identified here by its unique sequence number). -/
def cancelSeq (s : Nat) (q : List TimerEntry) : List TimerEntry :=
  q.map (fun e =>
    if e.seq = s then { e with cancelled := true, action := none } else e)

/-- One pass of the `_TimerWorker` loop at time `now`, atomically: peek the
minimal entry; a cancelled head is popped and dropped; a head that is not
yet due leaves the queue unchanged (the worker waits); a due, uncancelled
head is popped and its action spawned.  Returns the new heap and the
spawned `(action, seq)`, if any.  (The worker re-checks the cancelled flag
after its wait before spawning; flags only ever go from false to true, so
checking once per atomic pass with cancellations modelled as separate trace
operations covers every interleaving.) -/
def workerStep (q : List TimerEntry) (now : Rat) :
    List TimerEntry × Option (Nat × Nat) :=
  match popMin q with
  | none => (q, none)
  | some (e, rest) =>
    if e.cancelled then (rest, none)
    else if now < e.deadline then (q, none)
    else
      match e.action with
      | some a => (rest, some (a, e.seq))
      | none => (rest, none) -- not reached for entries built by Schedule

/-- Interleaved events on a timer queue: a worker pass at some time, a new
`Schedule`, or a `cancel` invocation. -/
inductive TimerOp where
| step (now : Rat)
| schedule (deadline : Rat) (action : Nat)
| cancel (s : Nat)
deriving DecidableEq

/-- Apply one timer event; the second component is the action spawned by a
worker pass, if any. -/
def TimerQueueState.applyTimerOp (tq : TimerQueueState) :
    TimerOp → TimerQueueState × Option (Nat × Nat)
| TimerOp.step now =>
    let r := workerStep tq.queue now
    ({ tq with queue := r.1 }, r.2)
| TimerOp.schedule d a => ((tq.schedule d a).1, none)
| TimerOp.cancel s => ({ tq with queue := cancelSeq s tq.queue }, none)

/-- Run a sequence of timer events, logging every spawned action. -/
def TimerQueueState.runTimerOps (tq : TimerQueueState) :
    List TimerOp → TimerQueueState × List (Nat × Nat)
| [] => (tq, [])
| op :: ops =>
  let r := tq.applyTimerOp op
  let rest := r.1.runTimerOps ops
  (rest.1, (match r.2 with | some x => [x] | none => []) ++ rest.2)

/-- The facts about a timer queue that hold from the moment an entry's
cancel function has run: the entry's sequence number has been issued, every
entry carries an issued sequence number, and any entry with the cancelled
sequence number has its flag set and its action nulled. -/
def TimerInv (s : Nat) (tq : TimerQueueState) : Prop :=
  s ≤ tq.seqCounter ∧
  ∀ e ∈ tq.queue,
    e.seq ≤ tq.seqCounter ∧ (e.seq = s → e.cancelled = true ∧ e.action = none)

/-! ## Timeout sink (scales/sink.py, TimeoutSink / TimeoutReplySink) -/

/-- The view of a message seen by `TimeoutSink.AsyncProcessMessage`:
whether it is a `MethodCallMessage`, its `Deadline` property (an absolute
time; absent or zero is falsy), and whether `Deadline.EVENT_KEY` has been
stamped. -/
structure MsgView where
  isMethodCall : Bool
  deadlineProp : Option Rat
  eventKeySet : Bool
deriving DecidableEq

/-- Python truthiness of the deadline property. -/
def deadlineTruthy : Option Rat → Bool
| none => false
| some d => d != 0

/-- Result of `TimeoutSink.AsyncProcessMessage`: the message forwarded to
`next_sink` (the method always forwards), whether the reply sink was
wrapped in a `TimeoutReplySink`, the deadline handed to
`GLOBAL_TIMER_QUEUE.Schedule`, and any reply completed synchronously by the
sink itself (the source completes none). -/
structure TimeoutSinkResult where
  forwardedMsg : Option MsgView
  wrappedReply : Bool
  scheduledDeadline : Option Rat
  immediateReply : Option DispRetMsg
deriving DecidableEq

/-- Embedding of `TimeoutSink.AsyncProcessMessage`.

Python:
  deadline = msg.properties.get(Deadline.KEY)
  if deadline and isinstance(msg, MethodCallMessage):
    evt = Event()
    msg.properties[Deadline.EVENT_KEY] = evt
    reply_sink = TimeoutReplySink(self, evt, reply_sink, deadline)
  return self.next_sink.AsyncProcessMessage(msg, reply_sink)

There is no test of the deadline against the current time and no
short-circuit: the message is always forwarded. -/
def timeoutSinkProcess (msg : MsgView) : TimeoutSinkResult :=
  if deadlineTruthy msg.deadlineProp && msg.isMethodCall then
    { forwardedMsg := some { msg with eventKeySet := true }
      wrappedReply := true
      scheduledDeadline := msg.deadlineProp
      immediateReply := none }
  else
    { forwardedMsg := some msg
      wrappedReply := false
      scheduledDeadline := none
      immediateReply := none }

/-- State of a `TimeoutReplySink`: its downstream reply sink (nulled once a
timeout fires) and the deadline event. -/
structure TimeoutReplyState where
  nextSink : Option Nat
  eventSet : Bool
deriving DecidableEq

/-- Embedding of `TimeoutReplySink._TimeoutHelper` (the action the timer
queue fires): set the event; if a downstream sink remains, null it and
deliver `MethodReturnMessage(error=TimeoutError())` to it. -/
def timeoutReplyFire (st : TimeoutReplyState) :
    TimeoutReplyState × Option (Nat × DispRetMsg) :=
  match st.nextSink with
  | some k =>
    ({ nextSink := none, eventSet := true },
     some (k, { error := some PyErr.timeoutErrorInstance, stack := none }))
  | none => ({ st with eventSet := true }, none)

/-! ## Serial socket transport (scales/thrift/sink.py) -/

/-- Modelled from the spec: the error classes raised on the serial
transport's reply path (`scales/message.py` is absent from the sources). -/
inductive SerialErr where
| channelConcurrencyError (text : String)
deriving DecidableEq

/-- State of the serial `SocketTransportSink` relevant to concurrency:
`processing` models `self._processing` (the greenlet handling the current
exchange, or `None`). -/
structure SerialTransport where
  processing : Option Nat
deriving DecidableEq

/-- Outcome of the serial `AsyncProcessRequest`: the new transport state,
any error message synthesized for the caller's sink stack, the payload
written to the socket by this call (always none - writes happen on the
spawned greenlet), and the transaction greenlet spawned, if any. -/
structure SerialAprOutcome where
  transport : SerialTransport
  response : Option (Nat × SerialErr)
  socketWrite : Option (List Nat)
  spawned : Option (Nat × Nat × Option Rat)
deriving DecidableEq

/-- Embedding of the serial `SocketTransportSink.AsyncProcessRequest`.

Python:
  if self._processing is not None:
    sink_stack.AsyncProcessResponseMessage(MethodReturnMessage(
      error=ChannelConcurrencyError('Concurrency violation in AsyncProcessRequest')))
    return
  payload = stream.getvalue()
  sz = pack('!i', len(payload))
  deadline = msg.properties.get(Deadline.KEY)
  self._processing = gevent.spawn(self._AsyncProcessTransaction, ...) -/
def serialAPR (s : SerialTransport) (sinkStack : Nat) (dataLen : Nat)
    (deadline : Option Rat) (freshGreenlet : Nat) : SerialAprOutcome :=
  match s.processing with
  | some _ =>
    { transport := s
      response := some (sinkStack,
        SerialErr.channelConcurrencyError ("Concurrency violation in AsyncProcessRequest"))
      socketWrite := none
      spawned := none }
  | none =>
    { transport := { processing := some freshGreenlet }
      response := none
      socketWrite := none
      spawned := some (freshGreenlet, dataLen, deadline) }

/-! ## ZooKeeper membership records (scales/loadbalancer/zookeeper.py) -/

/-- Embedding of `Endpoint`: `(host, port)`. -/
structure Endpoint where
  host : String
  port : Int
deriving DecidableEq

/-- Embedding of `Endpoint.__str__`: `'%s:%s' % (self.host, self.port)`. -/
def endpointStr (e : Endpoint) : String :=
  e.host ++ (":") ++ toString e.port

/-- Embedding of `Endpoint.__eq__`: same class and equal `(host, port)`
keys. -/
def endpointBeq (a b : Endpoint) : Bool :=
  a.host == b.host && a.port == b.port

/-- Embedding of `Member`: the node name, the service endpoint, the named
additional endpoints (a dict, modelled as an association list with distinct
keys), the status string and the optional shard. -/
structure Member where
  name : String
  serviceEndpoint : Endpoint
  additionalEndpoints : List (String × Endpoint)
  status : String
  shard : Option Int
deriving DecidableEq

/-- Embedding of `Member.__addl_endpoints_str`:
`['%s=>%s' % (k, v) for k, v in self.additional_endpoints.items()]`. -/
def addlStrs (m : Member) : List String :=
  m.additionalEndpoints.map (fun kv => kv.1 ++ ("=>") ++ endpointStr kv.2)

/-- Equality of the `frozenset(sorted(...))` components of two `_key`
tuples: two frozensets are equal exactly when they hold the same elements
(sorting does not change the set). -/
def strSetBeq (a b : List String) : Bool :=
  a.all (fun s => b.contains s) && b.all (fun s => a.contains s)

/-- Embedding of `Member.__eq__` via `Member._key`:
`(service_endpoint, frozenset(sorted(addl_strs)), status, shard)` compared
componentwise; the member name is not part of the key.  The service
endpoint comparison is `Endpoint.__eq__`. -/
def memberBeq (a b : Member) : Bool :=
  endpointBeq a.serviceEndpoint b.serviceEndpoint
    && strSetBeq (addlStrs a) (addlStrs b)
    && a.status == b.status
    && a.shard == b.shard

/-! ## Concrete states used by the closed theorems -/

/-- A fresh multiplexed transport whose state has been set to `STOPPED`. -/
def muxStoppedFresh : MuxTransport :=
  { initMux with state := DispatcherState.STOPPED }

/-- A running multiplexed transport with two calls in flight (tags 2 and 3
held by sink stacks 11 and 12). -/
def muxRunning : MuxTransport :=
  { initMux with
      state := DispatcherState.RUNNING
      tagMap := [(2, 11), (3, 12)]
      pool := { free := [], next := 3, maxTag := 2 ^ 24 - 1, exhausted := 0 }
      activeGauge := 1 }

/-- The transport `muxRunning` after it has already stopped. -/
def muxStopped : MuxTransport :=
  { muxRunning with state := DispatcherState.STOPPED }

/-- The state reached from a fresh transport by one two-way
`AsyncProcessRequest` (allocating tag 2 for sink stack 7) followed by a
bare `TagPool.release(2)` while tag 2 is still in flight. -/
def c1CexState : MuxTransport :=
  initMux.runOps [MuxOp.processRequest 7 false 2 10, MuxOp.poolRelease 2]

/-- Observer: did `TagPool.get` raise the pool-exhausted exception? -/
def GetResult.isExhausted : GetResult → Bool
| GetResult.exhausted _ => true
| GetResult.ok _ _ => false

/-! ## Theorems -/

/-- C10: `DispatchMethodCall` computes `timeout = timeout or
self._dispatch_timeout`, so a timeout argument of 0 (or `None`, the only
other falsy value a numeric timeout can take) stamps
`Deadline = now + default`, never `now + 0`: a zero timeout cannot be
requested. -/
theorem dispatch_zero_timeout_uses_default (now defaultTimeout : Rat)
    (arg : Option Rat) (h : arg = some 0 ∨ arg = none) :
    dispatchDeadline now arg defaultTimeout = now + defaultTimeout := by
  rcases h with rfl | rfl <;> simp [dispatchDeadline, effectiveTimeout]

/-- Witness for C10: requesting `timeout=0` with default 7 at time 3 stamps
deadline 10. -/
theorem dispatch_zero_timeout_uses_default_witness :
    dispatchDeadline 3 (some 0) 7 = 3 + 7 :=
  dispatch_zero_timeout_uses_default 3 7 (some 0) (Or.inl rfl)

/-- C4: evaluation of `_WrapException` at the failing input.  The source
guards with `msg.error is TimeoutError`, an identity test against the
class, which an actual `TimeoutError()` instance never satisfies; so a
timeout return message that carries a stack string is wrapped in a
`ScalesError` instead of surfacing verbatim, contradicting the source's own
comment ("Don't wrap timeouts.") and the spec. -/
theorem wrapException_wraps_timeout_instance :
    wrapException { error := some PyErr.timeoutErrorInstance, stack := some [("tb")] } =
      WrapResult.scalesError (wrapText [("tb")]) ∧
    wrapException { error := some PyErr.timeoutErrorInstance, stack := some [("tb")] } ≠
      WrapResult.raw (some PyErr.timeoutErrorInstance) := by
  decide

/-- C8: when `_processing` is non-null, the serial transport's
`AsyncProcessRequest` synthesizes `ChannelConcurrencyError` to the caller's
sink stack, writes nothing to the socket, spawns no transaction, and leaves
the transport (and hence the first in-flight call's `_processing` handle)
unchanged. -/
theorem serial_concurrency_rejected (s : SerialTransport) (st dl : Nat)
    (ddl : Option Rat) (g p : Nat) (h : s.processing = some p) :
    serialAPR s st dl ddl g =
      { transport := s
        response := some (st, SerialErr.channelConcurrencyError
          ("Concurrency violation in AsyncProcessRequest"))
        socketWrite := none
        spawned := none } := by
  unfold serialAPR
  rw [h]

/-- Witness for C8: a transport busy with greenlet 4 rejects sink stack 9. -/
theorem serial_concurrency_rejected_witness :
    serialAPR { processing := some 4 } 9 20 none 5 =
      { transport := { processing := some 4 }
        response := some (9, SerialErr.channelConcurrencyError
          ("Concurrency violation in AsyncProcessRequest"))
        socketWrite := none
        spawned := none } :=
  serial_concurrency_rejected { processing := some 4 } 9 20 none 5 4 rfl

/-- C2: `_Shutdown(reason)` is idempotent - called on a `STOPPED` transport
it returns immediately, changing nothing and dispatching nothing - and a
first call moves the state to `STOPPED`, closes the socket, signals the
shutdown future, and delivers a `ScalesClientError` return message to every
sink stack in the in-flight map. -/
theorem shutdown_idempotent_and_drains (s : MuxTransport) (r : String) :
    (s.state = DispatcherState.STOPPED → s.shutdown r = (s, [])) ∧
    (s.state ≠ DispatcherState.STOPPED →
      (s.shutdown r).1.state = DispatcherState.STOPPED ∧
      (s.shutdown r).1.socketClosed = true ∧
      (s.shutdown r).1.shutdownReason = some r ∧
      ∀ kv ∈ s.tagMap,
        (kv.2, ({ error := some (MuxError.scalesClientError r) } : MuxRetMsg)) ∈
          (s.shutdown r).2) := by
  constructor
  · intro h
    simp [MuxTransport.shutdown, h]
  · intro h
    unfold MuxTransport.shutdown
    rw [if_neg h]
    exact ⟨rfl, rfl, rfl, fun kv hkv => List.mem_map_of_mem _ hkv⟩

/-- Witness for C2: the second shutdown of `muxStopped` is a no-op, and the
first shutdown of `muxRunning` stops it and drains sink stacks 11 and 12. -/
theorem shutdown_idempotent_and_drains_witness :
    (muxStopped.shutdown ("conn reset") = (muxStopped, [])) ∧
    ((muxRunning.shutdown ("conn reset")).1.state = DispatcherState.STOPPED ∧
      (muxRunning.shutdown ("conn reset")).1.socketClosed = true ∧
      (muxRunning.shutdown ("conn reset")).1.shutdownReason = some ("conn reset") ∧
      ∀ kv ∈ muxRunning.tagMap,
        (kv.2, ({ error := some (MuxError.scalesClientError ("conn reset")) } : MuxRetMsg)) ∈
          (muxRunning.shutdown ("conn reset")).2) :=
  ⟨(shutdown_idempotent_and_drains muxStopped ("conn reset")).1 (by decide),
   (shutdown_idempotent_and_drains muxRunning ("conn reset")).2 (by decide)⟩

/-- C3, counterexample: on a `STOPPED` fresh transport, a two-way
`AsyncProcessRequest` completes no sink stack with an error, enqueues a
frame on the send queue, acquires tag 2 and records it in the in-flight
map - the claimed state check does not exist in the source. -/
theorem apr_state_check_cex :
    muxStoppedFresh.state ≠ DispatcherState.RUNNING ∧
    (muxStoppedFresh.asyncProcessRequest 9 false 2 5).response = none ∧
    (muxStoppedFresh.asyncProcessRequest 9 false 2 5).transport.sendQueue = [mkFrame 2 2 5] ∧
    (muxStoppedFresh.asyncProcessRequest 9 false 2 5).transport.tagMap = [(2, 9)] ∧
    (muxStoppedFresh.asyncProcessRequest 9 false 2 5).assignedTag = some 2 := by
  decide

/-- C3 (amended): the multiplexed `AsyncProcessRequest` never consults the
transport state: also while the state is not `RUNNING` it completes no sink
stack with an error, and (whenever the tag pool does not raise) it acquires
a tag, records the caller's sink stack under it in the in-flight map, and
enqueues exactly the framed payload on the send queue. -/
theorem apr_ignores_state (s : MuxTransport) (st : Nat) (mt : Int) (dl : Nat)
    (hstate : s.state ≠ DispatcherState.RUNNING) :
    (s.asyncProcessRequest st false mt dl).response = none ∧
    (∀ t p2, s.pool.get = GetResult.ok t p2 →
      (s.asyncProcessRequest st false mt dl).assignedTag = some t ∧
      t ∈ (s.asyncProcessRequest st false mt dl).transport.tags ∧
      (s.asyncProcessRequest st false mt dl).transport.sendQueue =
        s.sendQueue ++ [mkFrame t mt dl]) := by
  unfold MuxTransport.asyncProcessRequest
  cases hg : s.pool.get with
  | ok t2 p2 =>
    refine ⟨rfl, ?_⟩
    intro t p3 hget
    cases hget
    simp [MuxTransport.tags]
  | exhausted p2 =>
    refine ⟨rfl, ?_⟩
    intro t p3 hget
    cases hget

/-- Witness for C3: the amended statement instantiated on the stopped
fresh transport. -/
theorem apr_ignores_state_witness :
    (muxStoppedFresh.asyncProcessRequest 9 false 2 5).response = none ∧
    (∀ t p2, muxStoppedFresh.pool.get = GetResult.ok t p2 →
      (muxStoppedFresh.asyncProcessRequest 9 false 2 5).assignedTag = some t ∧
      t ∈ (muxStoppedFresh.asyncProcessRequest 9 false 2 5).transport.tags ∧
      (muxStoppedFresh.asyncProcessRequest 9 false 2 5).transport.sendQueue =
        muxStoppedFresh.sendQueue ++ [mkFrame t 2 5]) :=
  apr_ignores_state muxStoppedFresh 9 2 5 (by decide)

/-- C5, counterexample: with `max_tag = 4` and no releases, the first two
`get()` calls return tags 2 and 3 and the THIRD call already raises
(`_next` starts at 1 and the raise fires when `_next == max_tag - 1`); four
calls do not succeed and the fifth is never reached. -/
theorem tagPool_maxTag4_cex :
    (TagPool.mk [] 1 4 0).get = GetResult.ok 2 (TagPool.mk [] 2 4 0) ∧
    (TagPool.mk [] 2 4 0).get = GetResult.ok 3 (TagPool.mk [] 3 4 0) ∧
    (TagPool.mk [] 3 4 0).get = GetResult.exhausted (TagPool.mk [] 3 4 1) := by
  decide

/-- C5 (amended): `TagPool.get` raises the pool-exhausted error exactly
when the free set holds no nonzero tag (in particular when it is empty)
and `_next` has reached `max_tag - 1`; with `max_tag = 4` and no releases,
two consecutive gets succeed with the distinct tags 2 and 3, and the third
raises, incrementing the `pool_exhausted` counter. -/
theorem tagPool_exhaustion_boundary :
    (∀ p : TagPool,
      (p.get).isExhausted =
        (!p.free.any (fun t => t != 0) && p.next == p.maxTag - 1)) ∧
    (TagPool.mk [] 1 4 0).get = GetResult.ok 2 (TagPool.mk [] 2 4 0) ∧
    (TagPool.mk [] 2 4 0).get = GetResult.ok 3 (TagPool.mk [] 3 4 0) ∧
    ((TagPool.mk [] 3 4 0).get).isExhausted = true ∧
    (2 : Nat) ≠ 3 := by
  refine ⟨?_, by decide, by decide, by decide, by decide⟩
  intro p
  unfold TagPool.get
  by_cases hany : p.free.any (fun t => t != 0)
  · rw [if_pos hany]
    cases hf : p.free with
    | nil => rw [hf] at hany; simp at hany
    | cons t rest =>
      rw [hf] at hany
      simp [GetResult.isExhausted, hany]
  · rw [if_neg hany]
    by_cases hnext : p.next = p.maxTag - 1
    · simp [hnext, GetResult.isExhausted, Bool.not_eq_true _ ▸ hany]
    · simp [hnext, GetResult.isExhausted]

/-- C7, counterexample: a `MethodCallMessage` whose `Deadline` property (5)
is already in the past at time 10 is NOT short-circuited:
`TimeoutSink.AsyncProcessMessage` completes no reply immediately and
forwards the message (with `Deadline.EVENT_KEY` stamped) to the next
sink. -/
theorem timeoutSink_forwards_past_deadline_cex :
    ((5 : Rat) < 10) ∧
    (timeoutSinkProcess (MsgView.mk true (some 5) false)).immediateReply = none ∧
    (timeoutSinkProcess (MsgView.mk true (some 5) false)).forwardedMsg =
      some (MsgView.mk true (some 5) true) ∧
    (timeoutSinkProcess (MsgView.mk true (some 5) false)).scheduledDeadline = some 5 := by
  refine ⟨by norm_num, ?_, ?_, ?_⟩ <;> decide

/-- C7 (amended): for every `MethodCallMessage` with a (nonzero) `Deadline`
property - in the past or not - `TimeoutSink.AsyncProcessMessage` never
completes the reply path itself; it wraps the reply sink in a
`TimeoutReplySink`, schedules the deadline in the timer queue, and forwards
the request to the next sink; a `TimeoutError` reply is produced only when
the timer worker later fires the scheduled `_TimeoutHelper` (which a past
deadline makes due immediately). -/
theorem timeoutSink_always_forwards (msg : MsgView) (now d : Rat)
    (hcall : msg.isMethodCall = true) (hd : msg.deadlineProp = some d)
    (hnz : d ≠ 0) (hpast : d < now) :
    (timeoutSinkProcess msg).immediateReply = none ∧
    (timeoutSinkProcess msg).forwardedMsg = some { msg with eventKeySet := true } ∧
    (timeoutSinkProcess msg).wrappedReply = true ∧
    (timeoutSinkProcess msg).scheduledDeadline = some d ∧
    (∀ k, timeoutReplyFire { nextSink := some k, eventSet := false } =
      ({ nextSink := none, eventSet := true },
       some (k, { error := some PyErr.timeoutErrorInstance, stack := none }))) := by
  have htruthy : deadlineTruthy (some d) = true := by
    simpa [deadlineTruthy] using hnz
  refine ⟨?_, ?_, ?_, ?_, fun k => rfl⟩ <;>
    simp [timeoutSinkProcess, htruthy, hcall, hd]

/-- Witness for C7: the amended statement at the concrete past-deadline
message of the counterexample scenario. -/
theorem timeoutSink_always_forwards_witness :
    (timeoutSinkProcess (MsgView.mk true (some 5) false)).immediateReply = none ∧
    (timeoutSinkProcess (MsgView.mk true (some 5) false)).forwardedMsg =
      some (MsgView.mk true (some 5) true) ∧
    (timeoutSinkProcess (MsgView.mk true (some 5) false)).wrappedReply = true ∧
    (timeoutSinkProcess (MsgView.mk true (some 5) false)).scheduledDeadline = some 5 ∧
    (∀ k, timeoutReplyFire { nextSink := some k, eventSet := false } =
      ({ nextSink := none, eventSet := true },
       some (k, { error := some PyErr.timeoutErrorInstance, stack := none }))) :=
  timeoutSink_always_forwards (MsgView.mk true (some 5) false) 10 5 rfl rfl
    (by norm_num) (by norm_num)

/-- Helper: `Endpoint.__eq__` compares exactly the `(host, port)` key, so
it coincides with structural equality of the record. -/
theorem endpointBeq_iff (a b : Endpoint) : endpointBeq a b = true ↔ a = b := by
  cases a
  cases b
  simp [endpointBeq, Endpoint.mk.injEq]

/-- Helper: the frozenset comparison is reflexive. -/
theorem strSetBeq_refl (l : List String) : strSetBeq l l = true := by
  simp [strSetBeq, List.all_eq_true]

/-- C9, counterexample: two `Member` records with equal service endpoints,
status and shard but DIFFERENT additional endpoint maps (key `n` mapped to
host `h=>x`, versus key `n=>h` mapped to host `x`, both with port 1)
compare equal, because `Member._key` renders additional endpoints as the
strings `'name=>host:port'` and both render to `n=>h=>x:1`.  Equality is
therefore not structural across the named additional endpoints. -/
theorem memberEq_not_structural_cex :
    memberBeq
      (Member.mk ("m1") (Endpoint.mk ("h") 1) [(("n"), Endpoint.mk ("h=>x") 1)] ("ALIVE") none)
      (Member.mk ("m1") (Endpoint.mk ("h") 1) [(("n=>h"), Endpoint.mk ("x") 1)] ("ALIVE") none)
      = true ∧
    ([(("n"), Endpoint.mk ("h=>x") 1)] : List (String × Endpoint)) ≠
      [(("n=>h"), Endpoint.mk ("x") 1)] := by
  decide

/-- C9 (amended): `Member` equality compares the service endpoint, status
and shard structurally (ignoring the member name), and the additional
endpoints only through the set of rendered strings `'name=>host:port'`:
structural equality of those fields implies member equality, and member
equality implies equality of the service endpoint, status, shard and the
rendered string sets - but not of the additional endpoint maps themselves,
since the rendering is not injective. -/
theorem memberEq_characterization (a b : Member) :
    ((a.serviceEndpoint = b.serviceEndpoint ∧
      a.additionalEndpoints = b.additionalEndpoints ∧
      a.status = b.status ∧ a.shard = b.shard) → memberBeq a b = true) ∧
    (memberBeq a b = true →
      a.serviceEndpoint = b.serviceEndpoint ∧
      strSetBeq (addlStrs a) (addlStrs b) = true ∧
      a.status = b.status ∧ a.shard = b.shard) := by
  constructor
  · rintro ⟨h1, h2, h3, h4⟩
    have haddl : addlStrs a = addlStrs b := by simp [addlStrs, h2]
    simp [memberBeq, (endpointBeq_iff a.serviceEndpoint b.serviceEndpoint).mpr h1,
      haddl, h3, h4, strSetBeq_refl]
  · intro h
    simp only [memberBeq, Bool.and_eq_true] at h
    obtain ⟨⟨⟨he, hs⟩, hst⟩, hsh⟩ := h
    refine ⟨(endpointBeq_iff a.serviceEndpoint b.serviceEndpoint).mp he, hs, ?_, ?_⟩
    · simpa using hst
    · simpa using hsh

/-- Witness for C9: the amended characterization applied to the two
colliding members of the counterexample. -/
theorem memberEq_characterization_witness :
    memberBeq
      (Member.mk ("m1") (Endpoint.mk ("h") 1) [(("n"), Endpoint.mk ("h=>x") 1)] ("ALIVE") none)
      (Member.mk ("m1") (Endpoint.mk ("h") 1) [(("n"), Endpoint.mk ("h=>x") 1)] ("ALIVE") none)
      = true :=
  (memberEq_characterization
      (Member.mk ("m1") (Endpoint.mk ("h") 1) [(("n"), Endpoint.mk ("h=>x") 1)] ("ALIVE") none)
      (Member.mk ("m1") (Endpoint.mk ("h") 1) [(("n"), Endpoint.mk ("h=>x") 1)] ("ALIVE") none)).1
    ⟨rfl, rfl, rfl, rfl⟩

/-- Helper: keys surviving a dict deletion were present before and differ
from the deleted key. -/
theorem mem_tags_eraseKey {k x : Nat} {m : List (Nat × Nat)}
    (h : x ∈ (eraseKey k m).map Prod.fst) : x ∈ m.map Prod.fst ∧ x ≠ k := by
  simp only [eraseKey, List.mem_map, List.mem_filter] at h
  obtain ⟨kv, ⟨hmem, hne⟩, rfl⟩ := h
  exact ⟨List.mem_map_of_mem _ hmem, by simpa using hne⟩

/-- Helper: when every free tag is at least 2, a successful `TagPool.get`
either pops the head of the free set or allocates the fresh tag
`next + 1`. -/
theorem tagPool_get_ok_cases {p : TagPool} {t : Nat} {p2 : TagPool}
    (hfree : ∀ x ∈ p.free, 2 ≤ x) (h : p.get = GetResult.ok t p2) :
    (p.free = t :: p2.free ∧ p2.next = p.next) ∨
    (p.free = [] ∧ p2.free = [] ∧ t = p.next + 1 ∧ p2.next = p.next + 1) := by
  unfold TagPool.get at h
  by_cases hany : p.free.any (fun x => x != 0)
  · rw [if_pos hany] at h
    cases hf : p.free with
    | nil => rw [hf] at hany; simp at hany
    | cons a rest =>
      rw [hf] at h
      simp only [GetResult.ok.injEq] at h
      obtain ⟨rfl, rfl⟩ := h
      exact Or.inl ⟨rfl, rfl⟩
  · rw [if_neg hany] at h
    have hnil : p.free = [] := by
      cases hf : p.free with
      | nil => rfl
      | cons a rest =>
        exfalso
        apply hany
        have ha : 2 ≤ a := hfree a (by rw [hf]; exact List.mem_cons_self a rest)
        rw [hf]
        simp only [List.any_cons, Bool.or_eq_true, bne_iff_ne]
        exact Or.inl (by omega)
    by_cases hnext : p.next = p.maxTag - 1
    · rw [if_pos hnext] at h
      simp at h
    · rw [if_neg hnext] at h
      simp only [GetResult.ok.injEq] at h
      obtain ⟨rfl, rfl⟩ := h
      exact Or.inr ⟨hnil, hnil, rfl, rfl⟩

/-- Helper: a raising `TagPool.get` only bumps the exhausted counter; the
free set and high-water mark are unchanged. -/
theorem tagPool_get_exhausted_state {p p2 : TagPool}
    (h : p.get = GetResult.exhausted p2) :
    p2.free = p.free ∧ p2.next = p.next := by
  unfold TagPool.get at h
  by_cases hany : p.free.any (fun x => x != 0)
  · rw [if_pos hany] at h
    cases hf : p.free with
    | nil => rw [hf] at hany; simp at hany
    | cons a rest =>
      rw [hf] at h
      simp at h
  · rw [if_neg hany] at h
    by_cases hnext : p.next = p.maxTag - 1
    · rw [if_pos hnext] at h
      simp only [GetResult.exhausted.injEq] at h
      subst h
      exact ⟨rfl, rfl⟩
    · rw [if_neg hnext] at h
      simp at h

/-- Helper: releasing a tag not currently in the free set conses it on. -/
theorem release_not_mem {p : TagPool} {t : Nat} (h : t ∉ p.free) :
    p.release t = { p with free := t :: p.free } := by
  unfold TagPool.release
  rw [if_neg h]

/-- Helper: shape of a one-way `AsyncProcessRequest` step. -/
theorem applyOp_request_true (s : MuxTransport) (st : Nat) (mt : Int) (dl : Nat) :
    s.applyOp (MuxOp.processRequest st true mt dl) =
      { s with sendQueue := s.sendQueue ++ [mkFrame 0 mt dl] } := rfl

/-- Helper: shape of a two-way `AsyncProcessRequest` step whose tag
allocation succeeds. -/
theorem applyOp_request_false_ok {s : MuxTransport} {t : Nat} {p2 : TagPool}
    (hg : s.pool.get = GetResult.ok t p2) (st : Nat) (mt : Int) (dl : Nat) :
    s.applyOp (MuxOp.processRequest st false mt dl) =
      { s with
          pool := p2
          tagMap := (t, st) :: eraseKey t s.tagMap
          sendQueue := s.sendQueue ++ [mkFrame t mt dl] } := by
  unfold MuxTransport.applyOp MuxTransport.asyncProcessRequest
  rw [hg]
  rfl

/-- Helper: shape of a two-way `AsyncProcessRequest` step whose tag
allocation raises. -/
theorem applyOp_request_false_exhausted {s : MuxTransport} {p2 : TagPool}
    (hg : s.pool.get = GetResult.exhausted p2) (st : Nat) (mt : Int) (dl : Nat) :
    s.applyOp (MuxOp.processRequest st false mt dl) = { s with pool := p2 } := by
  unfold MuxTransport.applyOp MuxTransport.asyncProcessRequest
  rw [hg]
  rfl

/-- Helper: shape of a `_ReleaseTag` step. -/
theorem applyOp_releaseTag_shape (s : MuxTransport) (t : Nat) :
    s.applyOp (MuxOp.releaseTag t) =
      { s with tagMap := eraseKey t s.tagMap, pool := s.pool.release t } := rfl

/-- Helper: shape of a bare successful `TagPool.get` step. -/
theorem applyOp_poolGet_ok {s : MuxTransport} {t : Nat} {p2 : TagPool}
    (hg : s.pool.get = GetResult.ok t p2) :
    s.applyOp MuxOp.poolGet = { s with pool := p2 } := by
  unfold MuxTransport.applyOp
  rw [hg]

/-- Helper: shape of a bare raising `TagPool.get` step. -/
theorem applyOp_poolGet_exhausted {s : MuxTransport} {p2 : TagPool}
    (hg : s.pool.get = GetResult.exhausted p2) :
    s.applyOp MuxOp.poolGet = { s with pool := p2 } := by
  unfold MuxTransport.applyOp
  rw [hg]

/-- Helper: the invariant only depends on the pool and the in-flight
map. -/
theorem muxInv_congr {s1 s2 : MuxTransport} (hpool : s2.pool = s1.pool)
    (hmap : s2.tagMap = s1.tagMap) (h : MuxInv s1) : MuxInv s2 := by
  unfold MuxInv MuxTransport.tags at h ⊢
  rw [hpool, hmap]
  exact h

/-- Helper: the invariant holds in the fresh transport state. -/
theorem muxInv_init : MuxInv initMux := by
  unfold MuxInv MuxTransport.tags initMux
  simp

/-- Helper: `AsyncProcessRequest` preserves the invariant. -/
theorem muxInv_request {s : MuxTransport} (hs : MuxInv s) (st : Nat) (ow : Bool)
    (mt : Int) (dl : Nat) :
    MuxInv (s.applyOp (MuxOp.processRequest st ow mt dl)) := by
  cases ow with
  | true =>
    rw [applyOp_request_true]
    exact muxInv_congr rfl rfl hs
  | false =>
    obtain ⟨hnd, hn1, hfree, htags, hdisj⟩ := hs
    cases hg : s.pool.get with
    | exhausted p2 =>
      rw [applyOp_request_false_exhausted hg]
      obtain ⟨hf2, hn2⟩ := tagPool_get_exhausted_state hg
      unfold MuxInv MuxTransport.tags
      dsimp only
      rw [hf2, hn2]
      exact ⟨hnd, hn1, hfree, htags, hdisj⟩
    | ok t p2 =>
      rw [applyOp_request_false_ok hg]
      rcases tagPool_get_ok_cases (fun x hx => (hfree x hx).1) hg with
        ⟨hfeq, hnext⟩ | ⟨hfe, hf2, hteq, hnext⟩
      · have hsub : ∀ x, x ∈ p2.free → x ∈ s.pool.free := by
          intro x hx
          rw [hfeq]
          exact List.mem_cons_of_mem _ hx
        have htf : t ∈ s.pool.free := by
          rw [hfeq]
          exact List.mem_cons_self t p2.free
        have hninc : (t :: p2.free).Nodup := hfeq ▸ hnd
        unfold MuxInv MuxTransport.tags
        dsimp only
        refine ⟨(List.nodup_cons.mp hninc).2, by rw [hnext]; exact hn1, ?_, ?_, ?_⟩
        · intro x hx
          rw [hnext]
          exact hfree x (hsub x hx)
        · intro x hx
          rw [List.map_cons] at hx
          rw [hnext]
          rcases List.mem_cons.mp hx with rfl | hx2
          · exact hfree x htf
          · exact htags x (mem_tags_eraseKey hx2).1
        · intro x hx
          rw [List.map_cons] at hx
          rcases List.mem_cons.mp hx with rfl | hx2
          · exact (List.nodup_cons.mp hninc).1
          · intro hmem
            exact hdisj x (mem_tags_eraseKey hx2).1 (hsub x hmem)
      · unfold MuxInv MuxTransport.tags
        dsimp only
        refine ⟨by rw [hf2]; exact List.nodup_nil, by rw [hnext]; omega, ?_, ?_, ?_⟩
        · intro x hx
          rw [hf2] at hx
          cases hx
        · intro x hx
          rw [List.map_cons] at hx
          rcases List.mem_cons.mp hx with rfl | hx2
          · rw [hteq, hnext]
            omega
          · obtain ⟨hb1, hb2⟩ := htags x (mem_tags_eraseKey hx2).1
            rw [hnext]
            exact ⟨hb1, by omega⟩
        · intro x hx hmem
          rw [hf2] at hmem
          cases hmem

/-- Helper: `_ReleaseTag` on an in-flight tag preserves the invariant. -/
theorem muxInv_releaseTag {s : MuxTransport} (hs : MuxInv s) (t : Nat)
    (ht : t ∈ s.tags) : MuxInv (s.applyOp (MuxOp.releaseTag t)) := by
  obtain ⟨hnd, hn1, hfree, htags, hdisj⟩ := hs
  have htnf : t ∉ s.pool.free := hdisj t ht
  rw [applyOp_releaseTag_shape, release_not_mem htnf]
  unfold MuxInv MuxTransport.tags
  dsimp only
  have htb := htags t ht
  refine ⟨List.nodup_cons.mpr ⟨htnf, hnd⟩, hn1, ?_, ?_, ?_⟩
  · intro x hx
    rcases List.mem_cons.mp hx with rfl | hx2
    · exact htb
    · exact hfree x hx2
  · intro x hx
    exact htags x (mem_tags_eraseKey hx).1
  · intro x hx hmem
    have h2 := mem_tags_eraseKey hx
    rcases List.mem_cons.mp hmem with rfl | hmem2
    · exact h2.2 rfl
    · exact hdisj x h2.1 hmem2

/-- Helper: a bare `TagPool.get` preserves the invariant. -/
theorem muxInv_poolGet {s : MuxTransport} (hs : MuxInv s) :
    MuxInv (s.applyOp MuxOp.poolGet) := by
  obtain ⟨hnd, hn1, hfree, htags, hdisj⟩ := hs
  cases hg : s.pool.get with
  | exhausted p2 =>
    rw [applyOp_poolGet_exhausted hg]
    obtain ⟨hf2, hn2⟩ := tagPool_get_exhausted_state hg
    unfold MuxInv MuxTransport.tags
    dsimp only
    rw [hf2, hn2]
    exact ⟨hnd, hn1, hfree, htags, hdisj⟩
  | ok t p2 =>
    rw [applyOp_poolGet_ok hg]
    rcases tagPool_get_ok_cases (fun x hx => (hfree x hx).1) hg with
      ⟨hfeq, hnext⟩ | ⟨hfe, hf2, hteq, hnext⟩
    · have hninc : (t :: p2.free).Nodup := hfeq ▸ hnd
      unfold MuxInv MuxTransport.tags
      dsimp only
      refine ⟨(List.nodup_cons.mp hninc).2, by rw [hnext]; exact hn1, ?_, ?_, ?_⟩
      · intro x hx
        have hxs : x ∈ s.pool.free := by
          rw [hfeq]
          exact List.mem_cons_of_mem _ hx
        rw [hnext]
        exact hfree x hxs
      · intro x hx
        rw [hnext]
        exact htags x hx
      · intro x hx hmem
        apply hdisj x hx
        rw [hfeq]
        exact List.mem_cons_of_mem _ hmem
    · unfold MuxInv MuxTransport.tags
      dsimp only
      refine ⟨by rw [hf2]; exact List.nodup_nil, by rw [hnext]; omega, ?_, ?_, ?_⟩
      · intro x hx
        rw [hf2] at hx
        cases hx
      · intro x hx
        obtain ⟨hb1, hb2⟩ := htags x hx
        rw [hnext]
        exact ⟨hb1, by omega⟩
      · intro x hx hmem
        rw [hf2] at hmem
        cases hmem

/-- Helper: the invariant holds in every safely reachable state. -/
theorem muxInv_of_safeReachable {s : MuxTransport} (h : SafeReachable s) :
    MuxInv s := by
  induction h with
  | init => exact muxInv_init
  | request s st ow mt dl _ ih => exact muxInv_request ih st ow mt dl
  | release s t _ ht ih => exact muxInv_releaseTag ih t ht
  | get s _ ih => exact muxInv_poolGet ih

/-- C1, counterexample: the claim quantifies over arbitrary sequences of
`AsyncProcessRequest`, `_ReleaseTag`, `TagPool.get` and `TagPool.release`
operations.  After one two-way `AsyncProcessRequest` (tag 2 goes in
flight) followed by a bare `TagPool.release(2)`, tag 2 sits in the free
set while still a key of the in-flight map - the sets are not disjoint -
and the very next `TagPool.get()` returns the in-flight tag 2. -/
theorem tagUniqueness_cex :
    2 ∈ c1CexState.tags ∧
    c1CexState.pool.free = [2] ∧
    c1CexState.pool.get =
      GetResult.ok 2 { free := [], next := 2, maxTag := 2 ^ 24 - 1, exhausted := 0 } := by
  decide

/-- C1 (amended): in every state reachable from the fresh transport by
`AsyncProcessRequest`, bare `TagPool.get`, and `_ReleaseTag` restricted to
tags currently in the in-flight map (releases of tags that are not in
flight are excluded - the unrestricted claim fails, see the
counterexample), the in-flight keys and the pool's free set are disjoint
and `TagPool.get()` never returns an in-flight tag. -/
theorem tagUniqueness_of_safeReachable {s : MuxTransport} (h : SafeReachable s) :
    (∀ t ∈ s.tags, t ∉ s.pool.free) ∧
    (∀ t p2, s.pool.get = GetResult.ok t p2 → t ∉ s.tags) := by
  obtain ⟨hnd, hn1, hfree, htags, hdisj⟩ := muxInv_of_safeReachable h
  refine ⟨hdisj, ?_⟩
  intro t p2 hget ht
  rcases tagPool_get_ok_cases (fun x hx => (hfree x hx).1) hget with
    ⟨hfeq, _⟩ | ⟨_, _, hteq, _⟩
  · exact hdisj t ht (by rw [hfeq]; exact List.mem_cons_self t p2.free)
  · have hb := (htags t ht).2
    omega

/-- Witness for C1: the amended statement at the state reached by a single
two-way request on the fresh transport. -/
theorem tagUniqueness_of_safeReachable_witness :
    (∀ t ∈ (initMux.applyOp (MuxOp.processRequest 7 false 2 10)).tags,
        t ∉ (initMux.applyOp (MuxOp.processRequest 7 false 2 10)).pool.free) ∧
    (∀ t p2,
        (initMux.applyOp (MuxOp.processRequest 7 false 2 10)).pool.get =
          GetResult.ok t p2 →
        t ∉ (initMux.applyOp (MuxOp.processRequest 7 false 2 10)).tags) :=
  tagUniqueness_of_safeReachable
    (SafeReachable.request initMux 7 false 2 10 SafeReachable.init)

/-- Helper: the popped minimum and the remaining entries all come from the
original heap. -/
theorem popMin_mem {q : List TimerEntry} {e : TimerEntry} {rest : List TimerEntry}
    (h : popMin q = some (e, rest)) : e ∈ q ∧ ∀ x ∈ rest, x ∈ q := by
  induction q generalizing e rest with
  | nil => simp [popMin] at h
  | cons a as ih =>
    unfold popMin at h
    cases hp : popMin as with
    | none =>
      rw [hp] at h
      simp only [Option.some.injEq, Prod.mk.injEq] at h
      obtain ⟨rfl, rfl⟩ := h
      exact ⟨List.mem_cons_self a as, by intro x hx; cases hx⟩
    | some pr =>
      obtain ⟨m, rest2⟩ := pr
      rw [hp] at h
      dsimp only at h
      obtain ⟨hm, hrest2⟩ := ih hp
      by_cases hle : entryLe a m
      · rw [if_pos hle] at h
        simp only [Option.some.injEq, Prod.mk.injEq] at h
        obtain ⟨rfl, rfl⟩ := h
        exact ⟨List.mem_cons_self a as, fun x hx => List.mem_cons_of_mem _ hx⟩
      · rw [if_neg hle] at h
        simp only [Option.some.injEq, Prod.mk.injEq] at h
        obtain ⟨rfl, rfl⟩ := h
        refine ⟨List.mem_cons_of_mem _ hm, ?_⟩
        intro x hx
        rcases List.mem_cons.mp hx with rfl | hx2
        · exact List.mem_cons_self x as
        · exact List.mem_cons_of_mem _ (hrest2 x hx2)

/-- Helper: a worker pass keeps only entries of the old heap and spawns
only an uncancelled entry of the old heap. -/
theorem workerStep_spec (q : List TimerEntry) (now : Rat) :
    (∀ x ∈ (workerStep q now).1, x ∈ q) ∧
    (∀ a sq, (workerStep q now).2 = some (a, sq) →
      ∃ e, e ∈ q ∧ e.cancelled = false ∧ e.seq = sq) := by
  unfold workerStep
  cases hp : popMin q with
  | none =>
    dsimp only
    exact ⟨fun x hx => hx, by intro a sq hx; cases hx⟩
  | some pr =>
    obtain ⟨e, rest⟩ := pr
    obtain ⟨he, hrest⟩ := popMin_mem hp
    dsimp only
    by_cases hc : e.cancelled
    · rw [if_pos hc]
      exact ⟨fun x hx => hrest x hx, by intro a sq hx; cases hx⟩
    · rw [if_neg hc]
      by_cases hd : now < e.deadline
      · rw [if_pos hd]
        exact ⟨fun x hx => hx, by intro a sq hx; cases hx⟩
      · rw [if_neg hd]
        cases ha : e.action with
        | none =>
          dsimp only
          exact ⟨fun x hx => hrest x hx, by intro a sq hx; cases hx⟩
        | some act =>
          dsimp only
          refine ⟨fun x hx => hrest x hx, ?_⟩
          intro a sq hx
          simp only [Option.some.injEq, Prod.mk.injEq] at hx
          obtain ⟨rfl, rfl⟩ := hx
          exact ⟨e, he, by simpa using hc, rfl⟩

/-- Helper: one timer event preserves the cancellation invariant, and a
worker pass never spawns an action under the cancelled sequence number. -/
theorem timerInv_step {s : Nat} {tq : TimerQueueState} (h : TimerInv s tq)
    (op : TimerOp) :
    TimerInv s (tq.applyTimerOp op).1 ∧
    (∀ a sq, (tq.applyTimerOp op).2 = some (a, sq) → sq ≠ s) := by
  obtain ⟨hse, hq⟩ := h
  cases op with
  | step now =>
    have hw := workerStep_spec tq.queue now
    unfold TimerQueueState.applyTimerOp
    dsimp only
    constructor
    · refine ⟨hse, ?_⟩
      intro x hx
      exact hq x (hw.1 x hx)
    · intro a sq hx
      obtain ⟨e, he, hc, hseq⟩ := hw.2 a sq hx
      intro heq
      have := (hq e he).2 (by rw [hseq, heq])
      rw [this.1] at hc
      cases hc
  | schedule d act =>
    unfold TimerQueueState.applyTimerOp TimerQueueState.schedule TimerInv
    dsimp only
    constructor
    · refine ⟨by omega, ?_⟩
      intro x hx
      rcases List.mem_cons.mp hx with rfl | hx2
      · exact ⟨Nat.le_refl _,
          fun heq => absurd (show tq.seqCounter + 1 = s from heq) (by omega)⟩
      · obtain ⟨hb, hcs⟩ := hq x hx2
        exact ⟨by omega, hcs⟩
    · intro a sq hx
      cases hx
  | cancel s2 =>
    unfold TimerQueueState.applyTimerOp
    dsimp only
    constructor
    · refine ⟨hse, ?_⟩
      intro x hx
      simp only [cancelSeq, List.mem_map] at hx
      obtain ⟨y, hy, rfl⟩ := hx
      obtain ⟨hyb, hys⟩ := hq y hy
      by_cases h2 : y.seq = s2
      · rw [if_pos h2]
        exact ⟨hyb, fun _ => ⟨rfl, rfl⟩⟩
      · rw [if_neg h2]
        exact ⟨hyb, hys⟩
    · intro a sq hx
      cases hx

/-- Helper: over any sequence of interleaved worker passes, schedules and
cancels starting from a queue satisfying the invariant, no spawned action
carries the cancelled sequence number. -/
theorem runTimerOps_no_cancelled_fire {s : Nat} :
    ∀ (ops : List TimerOp) (tq : TimerQueueState), TimerInv s tq →
      ∀ p ∈ (tq.runTimerOps ops).2, p.2 ≠ s := by
  intro ops
  induction ops with
  | nil =>
    intro tq h p hp
    simp [TimerQueueState.runTimerOps] at hp
  | cons op ops ih =>
    intro tq h p hp
    obtain ⟨h1, h2⟩ := timerInv_step h op
    simp only [TimerQueueState.runTimerOps] at hp
    rcases List.mem_append.mp hp with hl | hr
    · cases hlog : (tq.applyTimerOp op).2 with
      | none => rw [hlog] at hl; cases hl
      | some x =>
        rw [hlog] at hl
        have hpx : p = x := by simpa using hl
        subst hpx
        exact h2 p.1 p.2 (by rw [hlog])
    · exact ih (tq.applyTimerOp op).1 h1 p hr

/-- C6: once an entry's cancel function has run (its flag is set and its
action nulled - the invariant below), the timer worker never spawns that
entry's action over any further interleaving of worker passes, schedules
and cancels; and running the cancel a second time leaves every entry, and
hence the queue, in the same state as after the first call. -/
theorem timerCancel_never_fires_and_idempotent (s : Nat) (tq : TimerQueueState)
    (ops : List TimerOp) (h : TimerInv s tq) :
    (∀ p ∈ (tq.runTimerOps ops).2, p.2 ≠ s) ∧
    cancelSeq s tq.queue = tq.queue := by
  refine ⟨runTimerOps_no_cancelled_fire ops tq h, ?_⟩
  obtain ⟨hse, hq⟩ := h
  unfold cancelSeq
  have hgen : ∀ (l : List TimerEntry),
      (∀ e ∈ l, e.seq = s → e.cancelled = true ∧ e.action = none) →
      (l.map fun e =>
        if e.seq = s then { e with cancelled := true, action := none } else e) = l := by
    intro l hl
    induction l with
    | nil => rfl
    | cons a as ihl =>
      rw [List.map_cons, ihl (fun e he hs2 => hl e (List.mem_cons_of_mem _ he) hs2)]
      by_cases ha : a.seq = s
      · obtain ⟨hc, hn⟩ := hl a (List.mem_cons_self a as) ha
        rw [if_pos ha, ← hc, ← hn]
      · rw [if_neg ha]
  exact hgen tq.queue (fun e he => (hq e he).2)

/-- Witness for C6: a queue holding one cancelled entry (seq 1), subjected
to a worker pass, a new schedule and another worker pass, never spawns
seq 1, and re-cancelling is the identity. -/
theorem timerCancel_never_fires_and_idempotent_witness :
    (∀ p ∈ ((TimerQueueState.mk [TimerEntry.mk 5 1 true none] 1 (1 / 100)).runTimerOps
        [TimerOp.step 10, TimerOp.schedule 3 9, TimerOp.step 10]).2, p.2 ≠ 1) ∧
    cancelSeq 1 [TimerEntry.mk 5 1 true none] = [TimerEntry.mk 5 1 true none] :=
  timerCancel_never_fires_and_idempotent 1
    (TimerQueueState.mk [TimerEntry.mk 5 1 true none] 1 (1 / 100))
    [TimerOp.step 10, TimerOp.schedule 3 9, TimerOp.step 10]
    (by unfold TimerInv; decide)
